import Mathlib

/-!
# VFader core logic — shallow embedding

Shallow embedding of the VFader virtual-fader engine (32 channels):
the drift-lock filter, the pickup/soft-takeover resolver run from
`parameterChanged`, the gang-fader propagation pass and the 7-bit/14-bit
MIDI value encoder run from `step`.

Machine `float` arithmetic is modelled over `ℚ`; all constants of the
source (`0.03f`, `0.001f`, `0.005333f`, `16383.0f`, …) are exact
rationals.  C `(int)` casts truncate toward zero and are modelled by
`ctrunc`; every such cast in the modelled code receives a nonnegative
argument, where truncation coincides with `Int.floor`.
-/

unseal Rat.add Rat.mul Rat.sub Rat.inv

namespace VFader

/-- C cast `(int)x`: truncation toward zero. -/
def ctrunc (x : ℚ) : ℤ := if x < 0 then -⌊-x⌋ else ⌊x⌋

/-- Sequential clamp `if (x < 0) x = 0; if (x > 1) x = 1;` used throughout the
source (both orderings of the two `if`s produce this function). -/
def clamp01 (x : ℚ) : ℚ := if x < 0 then 0 else if x > 1 then 1 else x

/-- Endpoint deadzone used in `parameterChanged`:
`if (v < 0.03f) v = 0.0f; else if (v > 0.97f) v = 1.0f;`. -/
def deadzone (x : ℚ) : ℚ := if x < 3/100 then 0 else if x > 97/100 then 1 else x

/-- Coarse 500-step quantization used for pickup mismatch detection:
`(int)(x * 500.0f + 0.5f)`. -/
def coarse (x : ℚ) : ℤ := ctrunc (x * 500 + 1/2)

/-- `applyDriftControl` — drift-lock hysteresis filter, translated from the
source.  `driftLevel`: 0 = off, 1 = Low (0.5%), 2 = High (1%). -/
def applyDriftControl (newValue lockedValue : ℚ) (driftLevel : ℕ) : ℚ :=
  if driftLevel = 0 then newValue
  else
    let threshold : ℚ :=
      if driftLevel = 1 then 5/1000 else if driftLevel = 2 then 1/100 else 0
    if lockedValue < 0 then newValue
    else if |newValue - lockedValue| > threshold then newValue
    else lockedValue

/-- Drift-lock contract as worded by the spec: return the raw value when the
lock is unset or the move is bigger than the dead-band, otherwise hold the
locked value.  Used only to compare against `applyDriftControl`. -/
def driftSpec (rawValue lockedValue threshold : ℚ) : ℚ :=
  if lockedValue < 0 ∨ |rawValue - lockedValue| > threshold then rawValue
  else lockedValue

/-! ## Pickup resolver (`parameterChanged`, FADER 1-8 branch, one channel) -/

/-- Per-channel state touched by the pickup resolver.
`value` is `internalFaders[i]`, `physicalPos` is `physicalFaderPos[i]`,
`lastPhysPos` is `lastPhysicalPos[i]`, `pivot` is `pickupPivot[i]`,
`startValue` is `pickupStartValue[i]`, `slewTarget` is `slewTarget[i]`,
`inPickup` is `inPickupMode[i]`, `inSlew` is `inSlewMode[i]`,
`settleFrames` is `pickupSettleFrames[i]`. -/
structure Chan where
  value : ℚ
  physicalPos : ℚ
  lastPhysPos : ℚ
  pivot : ℚ
  startValue : ℚ
  slewTarget : ℚ
  inPickup : Bool
  inSlew : Bool
  settleFrames : ℕ
deriving DecidableEq

/-- The physical sample as seen by the resolver: the parameter scaled to
[0,1] is clamped and then passed through the 3% endpoint deadzone. -/
def effSample (vRaw : ℚ) : ℚ := deadzone (clamp01 vRaw)

/-- `coarseMismatch = abs(coarsePhysical - coarseCurrrent)` where both the
physical sample and the held value get the endpoint deadzone first. -/
def coarseMismatch (c : Chan) (vRaw : ℚ) : ℕ :=
  (coarse (effSample vRaw) - coarse (deadzone c.value)).natAbs

/-- `movingContinuously = fabsf(movementDelta) > 0.001f` with
`movementDelta = v - lastPhysicalPos[i]`. -/
def movingContinuously (c : Chan) (vRaw : ℚ) : Prop :=
  |effSample vRaw - c.lastPhysPos| > 1/1000

instance (c : Chan) (vRaw : ℚ) : Decidable (movingContinuously c vRaw) := by
  unfold movingContinuously; infer_instance

/-- `sameDirection`: the two-sample movement and the one-sample movement
point the same way. -/
def sameDirection (c : Chan) (vRaw : ℚ) : Prop :=
  (effSample vRaw - c.lastPhysPos > 0 ∧ effSample vRaw - c.physicalPos > 0) ∨
  (effSample vRaw - c.lastPhysPos < 0 ∧ effSample vRaw - c.physicalPos < 0)

instance (c : Chan) (vRaw : ℚ) : Decidable (sameDirection c vRaw) := by
  unfold sameDirection; infer_instance

/-- Affine scaled-pickup target shared by Scaled mode and the far branch of
Catch mode: ratio-based extrapolation from (`pivotPos`, `startValue`) toward
0 or 1 on the side of the pivot the sample sits on, then clamped. -/
def scaledTarget (pivotPos startValue v : ℚ) : ℚ :=
  let physicalDelta := v - pivotPos
  let t :=
    if physicalDelta > 0 then
      let physicalRange := 1 - pivotPos
      let valueRange := 1 - startValue
      if physicalRange > 1/1000 then
        let ratio := physicalDelta / physicalRange
        let ratio := if ratio > 1 then 1 else ratio
        startValue + ratio * valueRange
      else 1
    else if physicalDelta < 0 then
      let physicalRange := pivotPos
      let valueRange := startValue
      if physicalRange > 1/1000 then
        let ratio := -physicalDelta / physicalRange
        let ratio := if ratio > 1 then 1 else ratio
        startValue - ratio * valueRange
      else 0
    else startValue
  clamp01 t

/-- The per-tick catch slew rate `0.005333f`. -/
def slewRate : ℚ := 5333/1000000

/-- One `parameterChanged` call for a FADER parameter, on the channel it
addresses.  `pickupMode`: 0 = Scaled, 1 = Catch.  `vRaw` is
`self->v[p] / 16383.0f` before its clamp.  Translated branch for branch
from the source. -/
def resolveChan (pickupMode : ℕ) (vRaw : ℚ) (c : Chan) : Chan :=
  let v := effSample vRaw
  let currentValue := c.value
  let mismatch := coarseMismatch c vRaw
  let mc := movingContinuously c vRaw
  let sd := sameDirection c vRaw
  -- tracking update done before the mode branches
  let c1 : Chan := { c with lastPhysPos := c.physicalPos, physicalPos := v }
  if c.inPickup = false then
    let settle1 :=
      if 0 < c.settleFrames then
        (if ¬ mc then c.settleFrames - 1 else 0)
      else c.settleFrames
    if settle1 = 0 ∧ (50 < mismatch ∨ (5 < mismatch ∧ ¬ (mc ∧ sd))) then
      { c1 with settleFrames := settle1, inPickup := true,
                pivot := v, startValue := currentValue }
    else
      { c1 with settleFrames := settle1, value := v }
  else if pickupMode = 1 then
    if mc ∧ sd ∧ mismatch < 50 then
      { c1 with value := v, inPickup := false, inSlew := false,
                pivot := -1, settleFrames := 0 }
    else if mismatch < 25 then
      let c2 := if c1.inSlew = false then { c1 with inSlew := true, slewTarget := v } else c1
      let delta := v - currentValue
      if mismatch < 2 then
        { c2 with value := v, inPickup := false, inSlew := false,
                  pivot := -1, settleFrames := 5 }
      else if delta > 0 then { c2 with value := currentValue + slewRate }
      else { c2 with value := currentValue - slewRate }
    else
      { c1 with value := scaledTarget c.pivot c.startValue v }
  else
    let targetValue := scaledTarget c.pivot c.startValue v
    if |v - targetValue| < 2/100 then
      { c1 with inPickup := false, pivot := -1, value := v }
    else
      { c1 with value := targetValue }

/-! ## Gang propagation pass (`step`, first loop) -/

/-- Per-channel state seen by the gang pass.  `value` is
`internalFaders[i]`, `refValue` is `faderReferenceValues[i]`,
`lastGangValue` is `lastGangValues[i]`; `controlCount` and `controlMode`
are `faderNoteSettings[i].controlAllCount` / `.controlAllMode`. -/
structure GChan where
  value : ℚ
  refValue : ℚ
  lastGangValue : ℚ
  controlCount : ℕ
  controlMode : ℕ
deriving DecidableEq

/-- `x` is visited by leader `i`'s child loops: `x = i + j` for some
`1 ≤ j ≤ controlCount` with `x < 32`, and `x` is not itself a leader
(the loops `continue` past those). -/
def isKid (s : Fin 32 → GChan) (i : Fin 32) (count : ℕ) (x : Fin 32) : Prop :=
  i.val < x.val ∧ x.val ≤ i.val + count ∧ (s x).controlCount = 0

instance (s : Fin 32 → GChan) (i : Fin 32) (count : ℕ) (x : Fin 32) :
    Decidable (isKid s i count x) := by
  unfold isKid; infer_instance

/-- The child indices of leader `i` in loop order (`i+1, i+2, …`, stopping
at 31, skipping nested leaders). -/
def kidIdxs (s : Fin 32 → GChan) (i : Fin 32) (count : ℕ) : List (Fin 32) :=
  (List.finRange 32).filter (fun x => decide (isKid s i count x))

/-- `minRef` of the Absolute-mode reference band: fold of `min` seeded 1.0,
exactly the source's `minRef` loop. -/
def gangMinRef (s : Fin 32 → GChan) (i : Fin 32) (count : ℕ) : ℚ :=
  ((kidIdxs s i count).map fun x => (s x).refValue).foldl min 1

/-- `maxRef` of the Absolute-mode reference band: fold of `max` seeded 0.0. -/
def gangMaxRef (s : Fin 32 → GChan) (i : Fin 32) (count : ℕ) : ℚ :=
  ((kidIdxs s i count).map fun x => (s x).refValue).foldl max 0

/-- `gangChanged`: the leader moved by more than 0.1% since last tick (or
`lastGangValues` is still the −1 sentinel). -/
def gangChanged (s : Fin 32 → GChan) (i : Fin 32) : Prop :=
  (s i).lastGangValue < 0 ∨ |(s i).value - (s i).lastGangValue| > 1/1000

instance (s : Fin 32 → GChan) (i : Fin 32) : Decidable (gangChanged s i) := by
  unfold gangChanged; infer_instance

/-- New value written to child `x` of a leader with value `gangValue` in
mode `mode` (0 = Absolute offset via `gangLogical`, 1 = Relative
proportional scaling), before the clamp. -/
def gangChildRaw (mode : ℕ) (gangLogical gangValue refValue : ℚ) : ℚ :=
  if mode = 0 then refValue + (gangLogical - 1/2)
  else if gangValue ≤ 1/2 then refValue * (gangValue / (1/2))
  else refValue + (1 - refValue) * ((gangValue - 1/2) / (1/2))

/-- One iteration of the gang loop of `step` for leader index `i`.
The source updates the children with a sequential `for`; since every
iteration reads and writes only its own child's slots (and the
`controlAllCount` fields it tests are never written), the loop equals this
simultaneous per-index update. -/
def processLeader (s : Fin 32 → GChan) (i : Fin 32) : Fin 32 → GChan :=
  let c := s i
  if c.controlCount = 0 then s
  else if ¬ gangChanged s i then s
  else
    let gangValue := c.value
    let count := c.controlCount
    let mode := c.controlMode
    let minRef := if mode = 0 then gangMinRef s i count else 1
    let maxRef := if mode = 0 then gangMaxRef s i count else 0
    let gangLogical :=
      if mode = 0 then
        let gangLogicalMin := 1/2 - maxRef
        let gangLogicalMax := 1/2 + (1 - minRef)
        gangLogicalMin + gangValue * (gangLogicalMax - gangLogicalMin)
      else 0
    fun x =>
      if x = i then { c with lastGangValue := gangValue }
      else if isKid s i count x then
        let newValue := clamp01 (gangChildRaw mode gangLogical gangValue ((s x).refValue))
        if mode = 1 then { s x with value := newValue, refValue := newValue }
        else { s x with value := newValue }
      else s x

/-- The whole gang pass: leaders processed in index order 0..31. -/
def gangPass (s : Fin 32 → GChan) : Fin 32 → GChan :=
  (List.finRange 32).foldl processLeader s

/-- The common signed offset added to every follower's reference in
Absolute mode: `gangLogical - 0.5` expressed from the leader's value and
the min/max reference band. -/
def gangShift (s : Fin 32 → GChan) (i : Fin 32) : ℚ :=
  let count := (s i).controlCount
  let minRef := gangMinRef s i count
  let maxRef := gangMaxRef s i count
  let gangLogicalMin := 1/2 - maxRef
  let gangLogicalMax := 1/2 + (1 - minRef)
  (gangLogicalMin + (s i).value * (gangLogicalMax - gangLogicalMin)) - 1/2

/-! ## Value encoder (`step`, MIDI section) -/

/-- One 3-byte control-change wire message. -/
structure Msg where
  status : ℕ
  cc : ℕ
  data : ℕ
deriving DecidableEq

/-- Per-fader note/number settings (the fields of
`VFader::FaderNoteSettings` the encoder reads). -/
structure FaderNoteSettings where
  displayMode : ℕ
  bottomMidi : ℕ
  topMidi : ℕ
  bottomValue : ℕ
  topValue : ℕ
  chromaticScale : Fin 12 → Bool

/-- The default settings written by `initializeNoteSettings`. -/
def defaultSettings : FaderNoteSettings :=
  { displayMode := 0, bottomMidi := 36, topMidi := 96,
    bottomValue := 0, topValue := 100, chromaticScale := fun _ => true }

/-- The active MIDI notes `bottomMidi ≤ m ≤ min topMidi 127` whose pitch
class is enabled, in ascending order — the `activeNotes` array built by
`snapToActiveNote`. -/
def activeNotes (st : FaderNoteSettings) : List ℕ :=
  (List.range 128).filter
    (fun m => decide (st.bottomMidi ≤ m) && decide (m ≤ st.topMidi) &&
      st.chromaticScale ⟨m % 12, Nat.mod_lt m (by norm_num)⟩)

/-- `snapToActiveNote`: snap a fader value to the nearest active note
(edge 5% zones pin to the first/last note). -/
def snapToActiveNote (faderValue : ℚ) (st : FaderNoteSettings) : ℕ :=
  let notes := activeNotes st
  match notes with
  | [] => st.bottomMidi
  | [n] => n
  | _ =>
    if faderValue ≤ 5/100 then notes.headD 0
    else if faderValue ≥ 95/100 then notes.getLastD 0
    else
      let adjustedValue := (faderValue - 5/100) / (9/10)
      let floatIndex := adjustedValue * ((notes.length - 1 : ℕ) : ℚ)
      let index := ctrunc (floatIndex + 1/2)
      let index := if index < 0 then 0 else index
      let index := if index ≥ (notes.length : ℤ) then (notes.length : ℤ) - 1 else index
      notes.getD index.toNat 0

/-- `snapToValueRange`: map a fader value into `[bottomValue, topValue]`
(edge 5% zones pin to the endpoints). -/
def snapToValueRange (faderValue : ℚ) (st : FaderNoteSettings) : ℤ :=
  if faderValue ≤ 5/100 then st.bottomValue
  else if faderValue ≥ 95/100 then st.topValue
  else
    let adjustedValue := (faderValue - 5/100) / (9/10)
    let range : ℤ := (st.topValue : ℤ) - (st.bottomValue : ℤ)
    let scaledValue : ℤ := (st.bottomValue : ℤ) + ctrunc (adjustedValue * (range : ℚ) + 1/2)
    let scaledValue := if scaledValue < (st.bottomValue : ℤ) then (st.bottomValue : ℤ) else scaledValue
    if scaledValue > (st.topValue : ℤ) then (st.topValue : ℤ) else scaledValue

/-- 7-bit data byte: note number in Note mode, else the 0-100 number scaled
to 0-127 (`(uint8_t)((scaledValue * 127) / 100)` then the 127 clamp). -/
def midiValue7 (currentValue : ℚ) (st : FaderNoteSettings) : ℕ :=
  if st.displayMode = 1 then (snapToActiveNote currentValue st) % 256
  else
    let scaledValue := (snapToValueRange currentValue st).toNat
    let mv := (scaledValue * 127 / 100) % 256
    if mv > 127 then 127 else mv

/-- Hard-coded MIDI channel 1: status byte `0xB0 | (1 - 1)`. -/
def status7 : ℕ := 0xB0 ||| (1 - 1)

/-- One channel of the 7-bit encoding loop of `step`.  `lastSent` is
`lastMidiValues[i]` (−1 sentinel = never sent).  Returns the emitted
message, if any, and the updated `lastMidiValues[i]`. -/
def sevenBitChan (driftLevel : ℕ) (st : FaderNoteSettings) (i : ℕ)
    (value lastSent : ℚ) : Option Msg × ℚ :=
  let currentValue := applyDriftControl value lastSent driftLevel
  let firstSend := lastSent < 0
  let valueChanged := |currentValue - lastSent| > 1/1000
  if firstSend ∨ valueChanged then
    (some { status := status7, cc := (i + 1) % 256, data := midiValue7 currentValue st },
     currentValue)
  else (none, lastSent)

/-- Encoder-side per-channel state in 14-bit mode. -/
structure Enc14 where
  lastSent : ℚ
  hold : ℕ
deriving DecidableEq

/-- `(int)(x * 16383.0f + 0.5f)` followed by the two clamps. -/
def full14 (x : ℚ) : ℤ :=
  let full := ctrunc (x * 16383 + 1/2)
  let full := if full > 16383 then 16383 else full
  if full < 0 then 0 else full

/-- MSB byte of a 14-bit value: `(uint8_t)(full >> 7)` then the 127 clamp. -/
def msbOf (full : ℤ) : ℕ :=
  let m := (full.toNat >>> 7) % 256
  if m > 127 then 127 else m

/-- LSB byte of a 14-bit value: `(uint8_t)(full & 0x7F)` then the (no-op)
127 clamp. -/
def lsbOf (full : ℤ) : ℕ :=
  let l := (full.toNat &&& 0x7F) % 256
  if l > 127 then 127 else l

/-- Endpoint snap of the 14-bit Number branch, with its sticky flag. -/
def endpointSnap (x : ℚ) : ℚ × Bool :=
  if x < 1/100 then (0, true)
  else if x > 99/100 then (1, true)
  else (x, false)

/-- One channel of the 14-bit encoding loop of `step` at a fixed value of
the global `send14bitPhase` flag (`false` = MSB half, `true` = LSB half).
Returns the emitted message, if any, and the updated
(`lastMidiValues[i]`, `endpointHoldCounter[i]`). -/
def fourteenBitChan (driftLevel : ℕ) (st : FaderNoteSettings) (i : ℕ)
    (phase : Bool) (value : ℚ) (e : Enc14) : Option Msg × Enc14 :=
  let currentValue := applyDriftControl value e.lastSent driftLevel
  let firstSend := e.lastSent < 0
  let valueChanged := |currentValue - e.lastSent| > 1/1000
  if firstSend ∨ valueChanged then
    let fullHold : ℤ × ℕ :=
      if st.displayMode = 1 then
        (((snapToActiveNote currentValue st) % 256 : ℕ) <<< 7, e.hold)
      else
        let (scaledValue, isAtEndpoint) := endpointSnap currentValue
        (full14 scaledValue, if isAtEndpoint then 3 else e.hold)
    let full := fullHold.1
    let msg : Msg :=
      if phase then { status := status7, cc := i + 32, data := lsbOf full }
      else { status := status7, cc := i, data := msbOf full }
    (some msg,
     { lastSent := if phase then currentValue else e.lastSent, hold := fullHold.2 })
  else if 0 < e.hold then
    let full := full14 e.lastSent
    let msg : Msg :=
      if phase then { status := status7, cc := i + 32, data := lsbOf full }
      else { status := status7, cc := i, data := msbOf full }
    (some msg, { lastSent := e.lastSent, hold := e.hold - 1 })
  else (none, e)

/-- One whole 14-bit tick of `step`: every channel is encoded at the current
phase, then the global phase flag toggles (once, after the loop). -/
def tick14 (driftLevel : ℕ) (sts : Fin 32 → FaderNoteSettings)
    (values : Fin 32 → ℚ) (phase : Bool) (encs : Fin 32 → Enc14) :
    (Fin 32 → Option Msg) × Bool × (Fin 32 → Enc14) :=
  (fun i => (fourteenBitChan driftLevel (sts i) i.val phase (values i) (encs i)).1,
   !phase,
   fun i => (fourteenBitChan driftLevel (sts i) i.val phase (values i) (encs i)).2)

/-- Iterate `sevenBitChan` for `n` ticks with a constant input value,
collecting the emitted messages. -/
def run7 (driftLevel : ℕ) (st : FaderNoteSettings) (i : ℕ) (value : ℚ)
    (lastSent : ℚ) : ℕ → List Msg × ℚ
  | 0 => ([], lastSent)
  | n + 1 =>
    let r := run7 driftLevel st i value lastSent n
    let s := sevenBitChan driftLevel st i value r.2
    (r.1 ++ s.1.toList, s.2)

/-- Iterate `fourteenBitChan` for `n` ticks with a constant input value,
toggling the phase each tick, collecting the emitted messages. -/
def run14 (driftLevel : ℕ) (st : FaderNoteSettings) (i : ℕ) (value : ℚ)
    (phase : Bool) (e : Enc14) : ℕ → List Msg × Bool × Enc14
  | 0 => ([], phase, e)
  | n + 1 =>
    let r := run14 driftLevel st i value phase e n
    let s := fourteenBitChan driftLevel st i r.2.1 value r.2.2
    (r.1 ++ s.1.toList, !r.2.1, s.2)

/-! ## Concrete example states -/

/-- Gang state with a nested leader: channel 0 leads 3 channels in Absolute
mode and has just moved to 1.0; channel 1 is itself a leader; channels 2
and 3 are plain followers at 1/2 with reference 1/2. -/
def nestedLeaderState : Fin 32 → GChan := fun x =>
  if x.val = 0 then ⟨1, 1/2, 0, 3, 0⟩
  else if x.val = 1 then ⟨1/2, 1/2, -1, 1, 0⟩
  else ⟨1/2, 1/2, -1, 0, 0⟩

/-- Gang state matching the spec's absolute-mode example: leader 0 drives
channels 1 and 2 whose references are 0.8 and 0.3; the leader has just
moved to 1.0. -/
def absBandState : Fin 32 → GChan := fun x =>
  if x.val = 0 then ⟨1, 1/2, -1, 2, 0⟩
  else if x.val = 1 then ⟨1/2, 8/10, -1, 0, 0⟩
  else if x.val = 2 then ⟨1/2, 3/10, -1, 0, 0⟩
  else ⟨1/2, 1/2, -1, 0, 0⟩

/-- A channel resting in Absolute mode at value 0.20, physically at 0.20,
settle expired — the spec's pickup-entry example. -/
def chanAt20 : Chan :=
  { value := 1/5, physicalPos := 1/5, lastPhysPos := 1/5, pivot := -1,
    startValue := 0, slewTarget := 0, inPickup := false, inSlew := false,
    settleFrames := 0 }

/-- A channel in pickup (Catch policy) at value 0.50 with the physical
control resting at 0.54: coarse mismatch 20, no continuous movement. -/
def chanCatching : Chan :=
  { value := 1/2, physicalPos := 54/100, lastPhysPos := 54/100, pivot := 54/100,
    startValue := 1/2, slewTarget := 0, inPickup := true, inSlew := false,
    settleFrames := 0 }

/-- An all-idle gang state: no leaders, every value and reference at 1/2. -/
def idleState : Fin 32 → GChan := fun _ => ⟨1/2, 1/2, -1, 0, 0⟩

/-! ## Helper lemmas -/

theorem clamp01_nonneg (x : ℚ) : 0 ≤ clamp01 x := by
  unfold clamp01; split_ifs <;> linarith

theorem clamp01_le_one (x : ℚ) : clamp01 x ≤ 1 := by
  unfold clamp01; split_ifs <;> linarith

theorem deadzone_low (x : ℚ) (h : x < 3/100) : deadzone x = 0 := by
  unfold deadzone; rw [if_pos h]

theorem deadzone_high (x : ℚ) (h : 97/100 < x) : deadzone x = 1 := by
  unfold deadzone; rw [if_neg (by linarith), if_pos h]

theorem deadzone_cases (x : ℚ) :
    deadzone x = 0 ∨ deadzone x = 1 ∨
      (3/100 ≤ deadzone x ∧ deadzone x ≤ 97/100 ∧ deadzone x = x) := by
  unfold deadzone; split_ifs with h1 h2
  · exact Or.inl rfl
  · exact Or.inr (Or.inl rfl)
  · exact Or.inr (Or.inr ⟨by linarith, by linarith, rfl⟩)

theorem deadzone_idem (x : ℚ) : deadzone (deadzone x) = deadzone x := by
  rcases deadzone_cases x with h | h | h
  · rw [h]; exact deadzone_low 0 (by norm_num)
  · rw [h]; exact deadzone_high 1 (by norm_num)
  · rw [h.2.2, h.2.2]

theorem effSample_nonneg (vRaw : ℚ) : 0 ≤ effSample vRaw := by
  unfold effSample
  rcases deadzone_cases (clamp01 vRaw) with h | h | h
  · rw [h]
  · rw [h]; norm_num
  · linarith [h.1]

theorem effSample_le_one (vRaw : ℚ) : effSample vRaw ≤ 1 := by
  unfold effSample
  rcases deadzone_cases (clamp01 vRaw) with h | h | h
  · rw [h]; norm_num
  · rw [h]
  · linarith [h.2.1]

theorem coarse_zero : coarse 0 = 0 := by decide

theorem coarse_one : coarse 1 = 500 := by decide

/-- If the effective sample equals the held value, the coarse mismatch is 0
(the deadzone is idempotent, so both sides quantize identically). -/
theorem coarseMismatch_eq_zero_of_eq (c : Chan) (vRaw : ℚ)
    (h : effSample vRaw = c.value) : coarseMismatch c vRaw = 0 := by
  unfold coarseMismatch
  rw [← h]
  have : deadzone (effSample vRaw) = effSample vRaw := deadzone_idem (clamp01 vRaw)
  rw [this, sub_self]
  rfl

section FoldMinMax

theorem foldl_max_init_le (l : List ℚ) (init : ℚ) : init ≤ l.foldl max init := by
  induction l generalizing init with
  | nil => exact le_refl _
  | cons b t ih => exact le_trans (le_max_left _ _) (ih (max init b))

theorem le_foldl_max (l : List ℚ) (init a : ℚ) (h : a ∈ l) : a ≤ l.foldl max init := by
  induction l generalizing init with
  | nil => cases h
  | cons b t ih =>
    rcases List.mem_cons.mp h with rfl | hmem
    · exact le_trans (le_max_right init a) (foldl_max_init_le t (max init a))
    · exact ih (max init b) hmem

theorem foldl_max_le (l : List ℚ) (init b : ℚ) (hi : init ≤ b)
    (h : ∀ a ∈ l, a ≤ b) : l.foldl max init ≤ b := by
  induction l generalizing init with
  | nil => exact hi
  | cons x t ih =>
    exact ih (max init x) (max_le hi (h x (List.mem_cons_self x t))) fun a ha => h a (List.mem_cons_of_mem x ha)

theorem foldl_min_le_init (l : List ℚ) (init : ℚ) : l.foldl min init ≤ init := by
  induction l generalizing init with
  | nil => exact le_refl _
  | cons b t ih => exact le_trans (ih (min init b)) (min_le_left _ _)

theorem foldl_min_le (l : List ℚ) (init a : ℚ) (h : a ∈ l) : l.foldl min init ≤ a := by
  induction l generalizing init with
  | nil => cases h
  | cons b t ih =>
    rcases List.mem_cons.mp h with rfl | hmem
    · exact le_trans (foldl_min_le_init t (min init a)) (min_le_right init a)
    · exact ih (min init b) hmem

theorem le_foldl_min (l : List ℚ) (init b : ℚ) (hi : b ≤ init)
    (h : ∀ a ∈ l, b ≤ a) : b ≤ l.foldl min init := by
  induction l generalizing init with
  | nil => exact hi
  | cons x t ih =>
    exact ih (min init x) (le_min hi (h x (List.mem_cons_self x t))) fun a ha => h a (List.mem_cons_of_mem x ha)

end FoldMinMax

theorem mem_kidIdxs {s : Fin 32 → GChan} {i : Fin 32} {count : ℕ} {x : Fin 32} :
    x ∈ kidIdxs s i count ↔ isKid s i count x := by
  simp [kidIdxs, List.mem_filter]

/-! ## Claim theorems -/

/-- C9.  The Drift Lock returns the raw value when the level is 0; at Low
and High it behaves exactly as the spec's contract with dead-bands 0.005
and 0.01: raw passes through when the lock is unset (negative) or the move
exceeds the threshold, otherwise the locked value is returned unchanged. -/
theorem c9_drift_lock_contract (rawValue lockedValue : ℚ) :
    applyDriftControl rawValue lockedValue 0 = rawValue ∧
    applyDriftControl rawValue lockedValue 1 = driftSpec rawValue lockedValue (5/1000) ∧
    applyDriftControl rawValue lockedValue 2 = driftSpec rawValue lockedValue (1/100) := by
  refine ⟨rfl, ?_, ?_⟩ <;>
  · simp only [applyDriftControl, driftSpec]
    norm_num
    split_ifs <;> first | rfl | tauto

/-- C2 counterexample.  In `nestedLeaderState`, channel 1 is a nested
leader inside leader 0's range, yet the propagation of leader 0 rewrites
channel 2 — a channel beyond the nested leader — from 1/2 to 1, so the
range is not truncated at the nested leader as the claim states. -/
theorem c2_counterexample :
    0 < (nestedLeaderState 1).controlCount ∧
    (1 : Fin 32).val < (2 : Fin 32).val ∧
    (2 : Fin 32).val ≤ (0 : Fin 32).val + (nestedLeaderState 0).controlCount ∧
    (processLeader nestedLeaderState 0 2).value ≠ (nestedLeaderState 2).value := by
  decide

/-- C2 (amended).  The propagation pass of leader `i` writes follower
values only at indices strictly between `i` and `i + controlCount`
(clipped at 31) that are not themselves leaders: the leader itself, every
channel outside that window, and every channel that is itself a leader
keep their value — but channels beyond a nested leader that are still
inside the window are written. -/
theorem c2_gang_propagation_writes (s : Fin 32 → GChan) (i x : Fin 32)
    (h : x.val ≤ i.val ∨ i.val + (s i).controlCount < x.val ∨
      0 < (s x).controlCount) :
    (processLeader s i x).value = (s x).value := by
  simp only [processLeader]
  by_cases h1 : (s i).controlCount = 0
  · rw [if_pos h1]
  · rw [if_neg h1]
    by_cases h2 : ¬ gangChanged s i
    · rw [if_pos h2]
    · rw [if_neg h2]
      by_cases hxi : x = i
      · subst hxi; simp
      · rw [if_neg hxi]
        by_cases hkid : isKid s i (s i).controlCount x
        · obtain ⟨ha, hb, hc⟩ := hkid
          rcases h with h | h | h <;> omega
        · rw [if_neg hkid]

/-- C2 witness: in `nestedLeaderState` the nested leader 1 sits inside
leader 0's window and keeps its value. -/
theorem c2_gang_propagation_writes_witness :
    (processLeader nestedLeaderState 0 1).value = (nestedLeaderState 1).value :=
  c2_gang_propagation_writes nestedLeaderState 0 1 (Or.inr (Or.inr (by decide)))

theorem processLeader_kid_value (s : Fin 32 → GChan) (i x : Fin 32)
    (hcount : (s i).controlCount ≠ 0) (hmode : (s i).controlMode = 0)
    (hch : gangChanged s i) (hkid : isKid s i (s i).controlCount x) :
    (processLeader s i x).value = clamp01 ((s x).refValue + gangShift s i) := by
  have hxi : x ≠ i := by
    obtain ⟨ha, _, _⟩ := hkid
    intro h; subst h; omega
  simp only [processLeader]
  rw [if_neg hcount, if_neg (not_not_intro hch), if_neg hxi, if_pos hkid, hmode]
  norm_num [gangChildRaw, gangShift, hmode]

theorem gangMaxRef_eq (s : Fin 32 → GChan) (i x : Fin 32) (count : ℕ)
    (hkid : isKid s i count x)
    (hrefs : ∀ y, isKid s i count y → 0 ≤ (s y).refValue)
    (hmax : ∀ y, isKid s i count y → (s y).refValue ≤ (s x).refValue) :
    gangMaxRef s i count = (s x).refValue := by
  apply le_antisymm
  · apply foldl_max_le
    · exact hrefs x hkid
    · intro a ha
      obtain ⟨y, hy, rfl⟩ := List.mem_map.mp ha
      exact hmax y (mem_kidIdxs.mp hy)
  · exact le_foldl_max _ _ _ (List.mem_map_of_mem _ (mem_kidIdxs.mpr hkid))

theorem gangMinRef_eq (s : Fin 32 → GChan) (i x : Fin 32) (count : ℕ)
    (hkid : isKid s i count x)
    (hrefs : ∀ y, isKid s i count y → (s y).refValue ≤ 1)
    (hmin : ∀ y, isKid s i count y → (s x).refValue ≤ (s y).refValue) :
    gangMinRef s i count = (s x).refValue := by
  apply le_antisymm
  · exact foldl_min_le _ _ _ (List.mem_map_of_mem _ (mem_kidIdxs.mpr hkid))
  · apply le_foldl_min
    · exact hrefs x hkid
    · intro a ha
      obtain ⟨y, hy, rfl⟩ := List.mem_map.mp ha
      exact hmin y (mem_kidIdxs.mp hy)

/-- C10.  In Absolute gang mode, for a leader whose value changed and whose
in-range followers all have references in [0,1]: every follower is written
`clamp01 (referenceValue + gangShift)` with the one shared shift derived
from the min/max reference band, so every written value lies in [0,1];
with the leader at 0 the follower holding the band's maximum reference is
driven exactly to 0; with the leader at 1 the follower holding the band's
minimum reference is driven exactly to 1. -/
theorem c10_gang_absolute_mode (s : Fin 32 → GChan) (i : Fin 32)
    (hcount : (s i).controlCount ≠ 0)
    (hmode : (s i).controlMode = 0)
    (hch : gangChanged s i)
    (hrefs : ∀ y, isKid s i (s i).controlCount y →
      0 ≤ (s y).refValue ∧ (s y).refValue ≤ 1) :
    (∀ x, isKid s i (s i).controlCount x →
      (processLeader s i x).value = clamp01 ((s x).refValue + gangShift s i) ∧
      0 ≤ (processLeader s i x).value ∧ (processLeader s i x).value ≤ 1) ∧
    (∀ x, isKid s i (s i).controlCount x →
      (∀ y, isKid s i (s i).controlCount y → (s y).refValue ≤ (s x).refValue) →
      (s i).value = 0 → (processLeader s i x).value = 0) ∧
    (∀ x, isKid s i (s i).controlCount x →
      (∀ y, isKid s i (s i).controlCount y → (s x).refValue ≤ (s y).refValue) →
      (s i).value = 1 → (processLeader s i x).value = 1) := by
  refine ⟨?_, ?_, ?_⟩
  · intro x hx
    have h := processLeader_kid_value s i x hcount hmode hch hx
    exact ⟨h, h ▸ clamp01_nonneg _, h ▸ clamp01_le_one _⟩
  · intro x hx hmax hv
    have h := processLeader_kid_value s i x hcount hmode hch hx
    have hM : gangMaxRef s i (s i).controlCount = (s x).refValue :=
      gangMaxRef_eq s i x _ hx (fun y hy => (hrefs y hy).1) hmax
    have hsh : gangShift s i = -(s x).refValue := by
      simp only [gangShift, hv, hM]; ring
    rw [h, hsh, show (s x).refValue + -(s x).refValue = 0 by ring]
    norm_num [clamp01]
  · intro x hx hmin hv
    have h := processLeader_kid_value s i x hcount hmode hch hx
    have hm : gangMinRef s i (s i).controlCount = (s x).refValue :=
      gangMinRef_eq s i x _ hx (fun y hy => (hrefs y hy).2) hmin
    have hsh : gangShift s i = 1 - (s x).refValue := by
      simp only [gangShift, hv, hm]; ring
    rw [h, hsh, show (s x).refValue + (1 - (s x).refValue) = 1 by ring]
    norm_num [clamp01]

/-- C10 witness: in `absBandState` (references 0.8 and 0.3, leader moved to
1.0) the most-constrained follower 2 (minimum reference 0.3) is driven
exactly to 1, and follower 1 receives the shared shifted value. -/
theorem c10_gang_absolute_mode_witness :
    (processLeader absBandState 0 2).value = 1 ∧
    (processLeader absBandState 0 1).value =
      clamp01 ((absBandState 1).refValue + gangShift absBandState 0) := by
  have h := c10_gang_absolute_mode absBandState 0 (by decide) (by decide) (by decide)
    (by decide)
  exact ⟨h.2.2 2 (by decide) (by decide) (by decide), (h.1 1 (by decide)).1⟩

theorem effSample_cases (vRaw : ℚ) :
    effSample vRaw = 0 ∨ effSample vRaw = 1 ∨
    (3/100 ≤ effSample vRaw ∧ effSample vRaw ≤ 97/100) := by
  unfold effSample
  rcases deadzone_cases (clamp01 vRaw) with h | h | h
  · exact Or.inl h
  · exact Or.inr (Or.inl h)
  · exact Or.inr (Or.inr ⟨h.1, h.2.1⟩)

theorem scaledTarget_nonneg (p s v : ℚ) : 0 ≤ scaledTarget p s v := by
  simp only [scaledTarget]; exact clamp01_nonneg _

theorem scaledTarget_le_one (p s v : ℚ) : scaledTarget p s v ≤ 1 := by
  simp only [scaledTarget]; exact clamp01_le_one _

/-- The catch slew can never push the value above 1: whenever the coarse
mismatch is still ≥ 2 and the sample is above the value, the value is at
most 0.97 (a value above 0.97 deadzones to 1 and could only mismatch a
sample of 1 by 0 coarse steps). -/
theorem slew_up_le_one (c : Chan) (vRaw : ℚ) (h0 : 0 ≤ c.value) (h1 : c.value ≤ 1)
    (hm : ¬ coarseMismatch c vRaw < 2) (hd : effSample vRaw - c.value > 0) :
    c.value + slewRate ≤ 1 := by
  rcases effSample_cases vRaw with hv | hv | hv
  · exfalso; rw [hv] at hd; linarith
  · by_cases hc : 97/100 < c.value
    · exfalso; apply hm
      unfold coarseMismatch
      rw [hv, deadzone_high _ hc, coarse_one, sub_self]
      norm_num
    · push_neg at hc; unfold slewRate; linarith
  · unfold slewRate; linarith [hv.2, hd]

/-- The catch slew can never push the value below 0, symmetrically. -/
theorem slew_down_nonneg (c : Chan) (vRaw : ℚ) (h0 : 0 ≤ c.value) (h1 : c.value ≤ 1)
    (hm : ¬ coarseMismatch c vRaw < 2) (hd : ¬ effSample vRaw - c.value > 0) :
    0 ≤ c.value - slewRate := by
  push_neg at hd
  rcases effSample_cases vRaw with hv | hv | hv
  · by_cases hc : c.value < 3/100
    · exfalso; apply hm
      unfold coarseMismatch
      rw [hv, deadzone_low _ hc, coarse_zero, sub_self]
      norm_num
    · push_neg at hc; unfold slewRate; linarith
  · have hc1 : c.value = 1 := le_antisymm h1 (by rw [hv] at hd; linarith)
    exfalso; apply hm
    unfold coarseMismatch
    rw [hv, hc1, deadzone_high _ (by norm_num), coarse_one, sub_self]
    norm_num
  · unfold slewRate; linarith [hv.1, hd]

set_option maxHeartbeats 2000000 in
theorem resolveChan_value_mem (pickupMode : ℕ) (vRaw : ℚ) (c : Chan)
    (h0 : 0 ≤ c.value) (h1 : c.value ≤ 1) :
    0 ≤ (resolveChan pickupMode vRaw c).value ∧
    (resolveChan pickupMode vRaw c).value ≤ 1 := by
  have hv0 := effSample_nonneg vRaw
  have hv1 := effSample_le_one vRaw
  have hs0 := scaledTarget_nonneg c.pivot c.startValue (effSample vRaw)
  have hs1 := scaledTarget_le_one c.pivot c.startValue (effSample vRaw)
  have hr : (0:ℚ) < slewRate := by norm_num [slewRate]
  simp only [resolveChan]
  split_ifs <;>
    refine ⟨?_, ?_⟩ <;>
    dsimp only <;>
    first
      | exact h0
      | exact h1
      | exact hv0
      | exact hv1
      | exact hs0
      | exact hs1
      | linarith
      | exact slew_up_le_one c vRaw h0 h1 (by assumption) (by assumption)
      | exact slew_down_nonneg c vRaw h0 h1 (by assumption) (by assumption)

theorem processLeader_value_mem (s : Fin 32 → GChan) (i : Fin 32)
    (hs : ∀ j, 0 ≤ (s j).value ∧ (s j).value ≤ 1) :
    ∀ j, 0 ≤ (processLeader s i j).value ∧ (processLeader s i j).value ≤ 1 := by
  intro j
  simp only [processLeader]
  by_cases h1 : (s i).controlCount = 0
  · rw [if_pos h1]; exact hs j
  · rw [if_neg h1]
    by_cases h2 : ¬ gangChanged s i
    · rw [if_pos h2]; exact hs j
    · rw [if_neg h2]
      by_cases hji : j = i
      · subst hji; rw [if_pos rfl]; exact hs j
      · rw [if_neg hji]
        by_cases hkid : isKid s i (s i).controlCount j
        · rw [if_pos hkid]
          split_ifs <;> exact ⟨clamp01_nonneg _, clamp01_le_one _⟩
        · rw [if_neg hkid]; exact hs j

theorem gangPass_value_mem (s : Fin 32 → GChan)
    (hs : ∀ j, 0 ≤ (s j).value ∧ (s j).value ≤ 1) :
    ∀ j, 0 ≤ (gangPass s j).value ∧ (gangPass s j).value ≤ 1 := by
  have main : ∀ (l : List (Fin 32)) (t : Fin 32 → GChan),
      (∀ j, 0 ≤ (t j).value ∧ (t j).value ≤ 1) →
      ∀ j, 0 ≤ (l.foldl processLeader t j).value ∧ (l.foldl processLeader t j).value ≤ 1 := by
    intro l
    induction l with
    | nil => intro t ht j; exact ht j
    | cons a tl ih =>
      intro t ht j
      exact ih (processLeader t a) (processLeader_value_mem t a ht) j
  exact main (List.finRange 32) s hs

/-- C1.  Held values stay in [0,1]: every `parameterChanged` pickup
resolution (every branch, including the Catch-policy slew step) maps a
channel whose value is in [0,1] to a channel whose value is in [0,1], and
the gang propagation pass of `step` maps a state whose 32 values are all
in [0,1] to a state whose 32 values are all in [0,1]. -/
theorem c1_held_values_stay_in_unit (pickupMode : ℕ) (vRaw : ℚ) (c : Chan)
    (s : Fin 32 → GChan)
    (hc : 0 ≤ c.value ∧ c.value ≤ 1)
    (hs : ∀ j, 0 ≤ (s j).value ∧ (s j).value ≤ 1) :
    (0 ≤ (resolveChan pickupMode vRaw c).value ∧
      (resolveChan pickupMode vRaw c).value ≤ 1) ∧
    (∀ j, 0 ≤ (gangPass s j).value ∧ (gangPass s j).value ≤ 1) :=
  ⟨resolveChan_value_mem pickupMode vRaw c hc.1 hc.2, gangPass_value_mem s hs⟩

/-- C1 witness: a Catch-policy slew step on `chanCatching` (which lands on
the `value + slewRate` branch) and the gang pass on `idleState`. -/
theorem c1_held_values_stay_in_unit_witness :
    (0 ≤ (resolveChan 1 (54/100) chanCatching).value ∧
      (resolveChan 1 (54/100) chanCatching).value ≤ 1) ∧
    (∀ j, 0 ≤ (gangPass idleState j).value ∧ (gangPass idleState j).value ≤ 1) :=
  c1_held_values_stay_in_unit 1 (54/100) chanCatching idleState (by decide) (by decide)

theorem activeNotes_le_127 (st : FaderNoteSettings) : ∀ m ∈ activeNotes st, m ≤ 127 := by
  intro m hm
  have h := List.mem_filter.mp hm
  have h2 := List.mem_range.mp h.1
  omega

theorem headD_le_127 (l : List ℕ) (d : ℕ) (hd : d ≤ 127)
    (hl : ∀ a ∈ l, a ≤ 127) : l.headD d ≤ 127 := by
  cases l with
  | nil => exact hd
  | cons a t => exact hl a (List.mem_cons_self a t)

theorem getLastD_le_127 (l : List ℕ) (d : ℕ) (hd : d ≤ 127)
    (hl : ∀ a ∈ l, a ≤ 127) : l.getLastD d ≤ 127 := by
  induction l generalizing d with
  | nil => exact hd
  | cons a t ih =>
    rw [List.getLastD_cons]
    exact ih a (hl a (List.mem_cons_self a t)) fun b hb => hl b (List.mem_cons_of_mem a hb)

theorem getD_le_127 (l : List ℕ) (k : ℕ) (d : ℕ) (hd : d ≤ 127)
    (hl : ∀ a ∈ l, a ≤ 127) : l.getD k d ≤ 127 := by
  induction l generalizing k with
  | nil => simpa [List.getD] using hd
  | cons a t ih =>
    cases k with
    | zero => simpa using hl a (List.mem_cons_self a t)
    | succ n =>
      simpa using ih n fun b hb => hl b (List.mem_cons_of_mem a hb)

theorem snapToActiveNote_le_127 (v : ℚ) (st : FaderNoteSettings)
    (hb : st.bottomMidi ≤ 127) : snapToActiveNote v st ≤ 127 := by
  have hall := activeNotes_le_127 st
  unfold snapToActiveNote
  rcases hn : activeNotes st with _ | ⟨a, _ | ⟨b, t2⟩⟩
  · exact hb
  · exact hall a (hn ▸ List.mem_cons_self a [])
  · have hall2 : ∀ m ∈ a :: b :: t2, m ≤ 127 := hn ▸ hall
    dsimp only
    split_ifs <;>
      first
        | exact headD_le_127 _ _ (by omega) hall2
        | exact getLastD_le_127 _ _ (by omega) hall2
        | exact getD_le_127 _ _ _ (by omega) hall2

theorem midiValue7_le_127 (v : ℚ) (st : FaderNoteSettings)
    (hb : st.displayMode = 1 → st.bottomMidi ≤ 127) :
    midiValue7 v st ≤ 127 := by
  unfold midiValue7
  split_ifs with h1
  · have := snapToActiveNote_le_127 v st (hb h1)
    omega
  · dsimp only
    split_ifs <;> omega

/-- C3 counterexample.  On a first send (sentinel −1) with value 0.5, the
7-bit encoder on channel 0 emits a message whose CC number is 1, not the
channel index 0: CC numbers are 1-based (`fader 0 → CC #1`). -/
theorem c3_counterexample :
    ((sevenBitChan 0 defaultSettings 0 (1/2) (-1)).1.map Msg.cc) = some 1 ∧
    (1 : ℕ) ≠ 0 := by
  decide

/-- C3 (amended).  In 7-bit mode, whenever the drift-controlled value
differs from `lastSentValue` by more than 0.001 or nothing was ever sent,
the encoder emits exactly one control-change message with status `0xB0`,
CC number `channel index + 1`, and a data byte in 0–127, and it stores the
drift-controlled value in `lastSentValue`; otherwise it emits nothing and
leaves `lastSentValue` unchanged. -/
theorem c3_seven_bit_encoding (d : ℕ) (st : FaderNoteSettings) (i : ℕ)
    (value lastSent : ℚ) (hi : i < 32)
    (hb : st.displayMode = 1 → st.bottomMidi ≤ 127) :
    ((lastSent < 0 ∨ |applyDriftControl value lastSent d - lastSent| > 1/1000) →
      (sevenBitChan d st i value lastSent).1 =
        some { status := 0xB0, cc := i + 1,
               data := midiValue7 (applyDriftControl value lastSent d) st } ∧
      midiValue7 (applyDriftControl value lastSent d) st ≤ 127 ∧
      (sevenBitChan d st i value lastSent).2 = applyDriftControl value lastSent d) ∧
    (¬ (lastSent < 0 ∨ |applyDriftControl value lastSent d - lastSent| > 1/1000) →
      (sevenBitChan d st i value lastSent).1 = none ∧
      (sevenBitChan d st i value lastSent).2 = lastSent) := by
  constructor
  · intro hcond
    simp only [sevenBitChan]
    rw [if_pos hcond]
    refine ⟨?_, midiValue7_le_127 _ st hb, rfl⟩
    have hcc : (i + 1) % 256 = i + 1 := Nat.mod_eq_of_lt (by omega)
    have hst : status7 = 0xB0 := by decide
    rw [hcc, hst]
  · intro hcond
    simp only [sevenBitChan]
    rw [if_neg hcond]
    exact ⟨rfl, rfl⟩

/-- C3 witness: channel 0, first send of value 0.5 in Number mode. -/
theorem c3_seven_bit_encoding_witness :
    (sevenBitChan 0 defaultSettings 0 (1/2) (-1)).1 =
      some { status := 0xB0, cc := 1,
             data := midiValue7 (applyDriftControl (1/2) (-1) 0) defaultSettings } ∧
    midiValue7 (applyDriftControl (1/2) (-1) 0) defaultSettings ≤ 127 ∧
    (sevenBitChan 0 defaultSettings 0 (1/2) (-1)).2 = applyDriftControl (1/2) (-1) 0 :=
  (c3_seven_bit_encoding 0 defaultSettings 0 (1/2) (-1) (by omega) (by decide)).1
    (Or.inl (by norm_num))

theorem applyDriftControl_self (v : ℚ) (d : ℕ) : applyDriftControl v v d = v := by
  simp only [applyDriftControl]
  split_ifs <;> rfl

/-- C4.  After a reset (`lastSentValue = −1`), eight ticks of the constant
sample 0.5 produce exactly one message, on the first tick; and in general a
converged channel (`lastSentValue = value`) produces no message and no
state change, in 7-bit mode, and in 14-bit mode whenever its endpoint-hold
counter is 0. -/
theorem c4_idempotent_after_convergence (d : ℕ) (st : FaderNoteSettings) (i : ℕ)
    (phase : Bool) (value : ℚ) (e : Enc14)
    (hv : 0 ≤ value) (he : e.lastSent = value) (hh : e.hold = 0) :
    ((run7 0 defaultSettings 0 (1/2) (-1) 8).1 =
       (run7 0 defaultSettings 0 (1/2) (-1) 1).1 ∧
     (run7 0 defaultSettings 0 (1/2) (-1) 1).1.length = 1) ∧
    sevenBitChan d st i value value = (none, value) ∧
    fourteenBitChan d st i phase value e = (none, e) := by
  refine ⟨by decide, ?_, ?_⟩
  · simp only [sevenBitChan]
    rw [applyDriftControl_self]
    rw [if_neg ?_]
    · push_neg
      exact ⟨hv, by rw [sub_self, abs_zero]; norm_num⟩
  · simp only [fourteenBitChan]
    rw [he, applyDriftControl_self]
    rw [if_neg ?_, if_neg ?_]
    · rw [hh]; exact lt_irrefl 0
    · push_neg
      exact ⟨hv, by rw [sub_self, abs_zero]; norm_num⟩

/-- C4 witness: converged channel at 0.5 with no endpoint hold. -/
theorem c4_idempotent_after_convergence_witness :
    ((run7 0 defaultSettings 0 (1/2) (-1) 8).1 =
       (run7 0 defaultSettings 0 (1/2) (-1) 1).1 ∧
     (run7 0 defaultSettings 0 (1/2) (-1) 1).1.length = 1) ∧
    sevenBitChan 0 defaultSettings 0 (1/2) (1/2) = (none, 1/2) ∧
    fourteenBitChan 0 defaultSettings 0 false (1/2) ⟨1/2, 0⟩ = (none, ⟨1/2, 0⟩) :=
  c4_idempotent_after_convergence 0 defaultSettings 0 false (1/2) ⟨1/2, 0⟩
    (by norm_num) rfl rfl

/-- C5.  14-bit mode: the global phase flag toggles exactly once per tick;
a changed (or never-sent) channel emits exactly one message, the half
selected by the current phase (MSB on CC `i`, LSB on CC `i + 32`);
`lastSentValue` is never updated on an MSB-phase tick; and for a change
from 0.0 to 1.0, two consecutive ticks emit exactly one MSB message and
one LSB message, both with data 127, from either starting phase. -/
theorem c5_fourteen_bit_phase (d : ℕ) (sts : Fin 32 → FaderNoteSettings)
    (values : Fin 32 → ℚ) (phase : Bool) (encs : Fin 32 → Enc14)
    (st : FaderNoteSettings) (i : ℕ) (value : ℚ) (e : Enc14)
    (hch : e.lastSent < 0 ∨ |applyDriftControl value e.lastSent d - e.lastSent| > 1/1000) :
    (tick14 d sts values phase encs).2.1 = !phase ∧
    (∃ m, (fourteenBitChan d st i phase value e).1 = some m ∧
      m.status = 0xB0 ∧ m.cc = (if phase then i + 32 else i)) ∧
    (∀ (st2 : FaderNoteSettings) (i2 : ℕ) (value2 : ℚ) (e2 : Enc14),
      (fourteenBitChan d st2 i2 false value2 e2).2.lastSent = e2.lastSent) ∧
    ((run14 0 defaultSettings 0 1 false ⟨0, 0⟩ 2).1 =
        [⟨0xB0, 0, 127⟩, ⟨0xB0, 32, 127⟩] ∧
     (run14 0 defaultSettings 0 1 true ⟨0, 0⟩ 2).1 =
        [⟨0xB0, 32, 127⟩, ⟨0xB0, 0, 127⟩] ∧
     (run14 0 defaultSettings 0 1 false ⟨0, 0⟩ 2).2.2.lastSent = 1) := by
  refine ⟨rfl, ?_, ?_, by decide⟩
  · simp only [fourteenBitChan]
    rw [if_pos hch]
    cases phase
    · refine ⟨_, rfl, ?_, ?_⟩ <;> simp [status7]
    · refine ⟨_, rfl, ?_, ?_⟩ <;> simp [status7]
  · intro st2 i2 value2 e2
    simp only [fourteenBitChan]
    split_ifs <;> simp_all

/-- C5 witness: channel 0, first send (sentinel −1) of value 1, MSB phase. -/
theorem c5_fourteen_bit_phase_witness :
    (tick14 0 (fun _ => defaultSettings) (fun _ => 1) false (fun _ => ⟨-1, 0⟩)).2.1 = !false ∧
    (∃ m, (fourteenBitChan 0 defaultSettings 0 false 1 ⟨-1, 0⟩).1 = some m ∧
      m.status = 0xB0 ∧ m.cc = (if false then 0 + 32 else 0)) ∧
    (∀ (st2 : FaderNoteSettings) (i2 : ℕ) (value2 : ℚ) (e2 : Enc14),
      (fourteenBitChan 0 st2 i2 false value2 e2).2.lastSent = e2.lastSent) ∧
    ((run14 0 defaultSettings 0 1 false ⟨0, 0⟩ 2).1 =
        [⟨0xB0, 0, 127⟩, ⟨0xB0, 32, 127⟩] ∧
     (run14 0 defaultSettings 0 1 true ⟨0, 0⟩ 2).1 =
        [⟨0xB0, 32, 127⟩, ⟨0xB0, 0, 127⟩] ∧
     (run14 0 defaultSettings 0 1 false ⟨0, 0⟩ 2).2.2.lastSent = 1) :=
  c5_fourteen_bit_phase 0 (fun _ => defaultSettings) (fun _ => 1) false (fun _ => ⟨-1, 0⟩)
    defaultSettings 0 1 ⟨-1, 0⟩ (Or.inl (by norm_num))

/-- C6 counterexample.  The hold window does not keep emitting the
terminal message: `lastSentValue` stores the unsnapped drift-controlled
value, and the hold branch re-encodes that.  Feeding the steady value
0.99485 from a converged-at-0 reset: ticks 1–2 snap to the endpoint and
emit MSB 127 / LSB 127, setting the counter to 3 but storing
`lastSent = 0.99485`; tick 3 (hold, no change) still shows MSB 127, but
tick 4 (hold, counter still positive, no change) emits LSB data 43 —
`full14 (19897/20000) = 16299` — not the terminal LSB 127. -/
theorem c6_counterexample :
    (run14 0 defaultSettings 0 (19897/20000) false ⟨0, 0⟩ 3).2.2 =
      (⟨19897/20000, 2⟩ : Enc14) ∧
    (run14 0 defaultSettings 0 (19897/20000) false ⟨0, 0⟩ 4).1 =
      [⟨0xB0, 0, 127⟩, ⟨0xB0, 32, 127⟩, ⟨0xB0, 0, 127⟩, ⟨0xB0, 32, 43⟩] ∧
    (43 : ℕ) ≠ 127 := by
  decide

/-- C6 (amended).  14-bit Number mode endpoint stickiness: when the
transmitted (drift-controlled) value snaps to an endpoint (below 0.01 or
above 0.99) on a changed tick, the hold counter is set to 3; on a tick
with no change while the counter is positive, the counter is decremented
and the encoder re-emits the phase half of the 14-bit image of
`lastSentValue` — the stored unsnapped value, not the snapped endpoint —
so the terminal message keeps being emitted for the 3 hold ticks only
when `lastSentValue` itself sits at the endpoint, as in the concrete
`lastSent = 1` trace. -/
theorem c6_endpoint_stickiness (d : ℕ) (st : FaderNoteSettings) (i : ℕ) (phase : Bool)
    (value value2 : ℚ) (e e2 : Enc14)
    (hmode : ¬ st.displayMode = 1)
    (hch : e.lastSent < 0 ∨ |applyDriftControl value e.lastSent d - e.lastSent| > 1/1000)
    (hend : applyDriftControl value e.lastSent d < 1/100 ∨
            99/100 < applyDriftControl value e.lastSent d)
    (hnoch : ¬ (e2.lastSent < 0 ∨
      |applyDriftControl value2 e2.lastSent d - e2.lastSent| > 1/1000))
    (hhold : 0 < e2.hold) :
    (fourteenBitChan d st i phase value e).2.hold = 3 ∧
    (fourteenBitChan d st i phase value2 e2).2.hold = e2.hold - 1 ∧
    (fourteenBitChan d st i phase value2 e2).1 =
      some (if phase then { status := status7, cc := i + 32, data := lsbOf (full14 e2.lastSent) }
            else { status := status7, cc := i, data := msbOf (full14 e2.lastSent) }) ∧
    (run14 0 defaultSettings 0 1 false ⟨1, 3⟩ 4).1 =
      [⟨0xB0, 0, 127⟩, ⟨0xB0, 32, 127⟩, ⟨0xB0, 0, 127⟩] := by
  refine ⟨?_, ?_, ?_, by decide⟩
  · simp only [fourteenBitChan]
    rw [if_pos hch, if_neg hmode]
    rcases hend with h | h
    · have hsnap : endpointSnap (applyDriftControl value e.lastSent d) = (0, true) := by
        unfold endpointSnap; rw [if_pos h]
      rw [hsnap]; rfl
    · have hsnap : endpointSnap (applyDriftControl value e.lastSent d) = (1, true) := by
        unfold endpointSnap; rw [if_neg (by linarith), if_pos h]
      rw [hsnap]; rfl
  · simp only [fourteenBitChan]
    rw [if_neg hnoch, if_pos hhold]
  · simp only [fourteenBitChan]
    rw [if_neg hnoch, if_pos hhold]

/-- C6 witness: channel 0 snapping from 0 to 1 (sets the counter), and a
held channel at lastSent 1 with counter 3 re-emitting and decrementing. -/
theorem c6_endpoint_stickiness_witness :
    (fourteenBitChan 0 defaultSettings 0 false 1 ⟨0, 0⟩).2.hold = 3 ∧
    (fourteenBitChan 0 defaultSettings 0 false 1 ⟨1, 3⟩).2.hold = (⟨1, 3⟩ : Enc14).hold - 1 ∧
    (fourteenBitChan 0 defaultSettings 0 false 1 ⟨1, 3⟩).1 =
      some (if false then { status := status7, cc := 0 + 32, data := lsbOf (full14 (1:ℚ)) }
            else { status := status7, cc := 0, data := msbOf (full14 (1:ℚ)) }) ∧
    (run14 0 defaultSettings 0 1 false ⟨1, 3⟩ 4).1 =
      [⟨0xB0, 0, 127⟩, ⟨0xB0, 32, 127⟩, ⟨0xB0, 0, 127⟩] :=
  c6_endpoint_stickiness 0 defaultSettings 0 false 1 1 ⟨0, 0⟩ ⟨1, 3⟩
    (by decide) (by decide) (by decide) (by decide) (by decide)

/-- C7.  From Absolute mode with the settle countdown expired, a sample
enters pickup mode exactly when the coarse mismatch exceeds 5 (1%) and
either it exceeds 50 (10%) or the movement is not a continuous
same-direction sweep; on the entering tick the pivot is set to the
(deadzoned) physical sample, `pickupStartValue` to the held value, and the
held value itself is unchanged. -/
theorem c7_pickup_entry (pickupMode : ℕ) (vRaw : ℚ) (c : Chan)
    (hp : c.inPickup = false) (hs : c.settleFrames = 0) :
    ((resolveChan pickupMode vRaw c).inPickup = true ↔
      (5 < coarseMismatch c vRaw ∧
        (50 < coarseMismatch c vRaw ∨
          ¬ (movingContinuously c vRaw ∧ sameDirection c vRaw)))) ∧
    ((resolveChan pickupMode vRaw c).inPickup = true →
      (resolveChan pickupMode vRaw c).pivot = effSample vRaw ∧
      (resolveChan pickupMode vRaw c).startValue = c.value ∧
      (resolveChan pickupMode vRaw c).value = c.value) := by
  simp only [resolveChan]
  rw [if_pos hp, hs]
  rw [if_neg (lt_irrefl 0)]
  by_cases hcond : 50 < coarseMismatch c vRaw ∨
      (5 < coarseMismatch c vRaw ∧ ¬ (movingContinuously c vRaw ∧ sameDirection c vRaw))
  · rw [if_pos ⟨rfl, hcond⟩]
    refine ⟨⟨fun _ => ?_, fun _ => rfl⟩, fun _ => ⟨rfl, rfl, rfl⟩⟩
    rcases hcond with h | h
    · exact ⟨by omega, Or.inl h⟩
    · exact ⟨h.1, Or.inr h.2⟩
  · rw [if_neg (fun h => hcond h.2)]
    have hfalse : ¬ (5 < coarseMismatch c vRaw ∧
        (50 < coarseMismatch c vRaw ∨
          ¬ (movingContinuously c vRaw ∧ sameDirection c vRaw))) := by
      rintro ⟨h5, h | h⟩
      · exact hcond (Or.inl h)
      · exact hcond (Or.inr ⟨h5, h⟩)
    refine ⟨⟨fun h => absurd h (by simp [hp]), fun h => absurd h hfalse⟩,
      fun h => absurd h (by simp [hp])⟩

/-- C7 witness: held value 0.20, physical sample 0.90 (coarse mismatch
350): the channel enters pickup, records pivot 0.9 and start value 0.2,
and the held value stays 0.20. -/
theorem c7_pickup_entry_witness :
    (resolveChan 0 (9/10) chanAt20).inPickup = true ∧
    (resolveChan 0 (9/10) chanAt20).pivot = effSample (9/10) ∧
    (resolveChan 0 (9/10) chanAt20).startValue = chanAt20.value ∧
    (resolveChan 0 (9/10) chanAt20).value = chanAt20.value := by
  have h := c7_pickup_entry 0 (9/10) chanAt20 rfl rfl
  have hin : (resolveChan 0 (9/10) chanAt20).inPickup = true := h.1.mpr (by decide)
  exact ⟨hin, h.2 hin⟩

/-- C8.  Catch policy, in pickup, coarse mismatch below 25 (5%), not taking
the continuous-movement exit: if the mismatch is still ≥ 2 coarse steps the
held value moves toward the sample by exactly `slewRate = 0.005333` (the
sample and held value necessarily differ); once the mismatch drops below 2
the held value snaps to the sample, pickup is exited and the settle counter
is set to 5 ticks. -/
theorem c8_catch_slew (vRaw : ℚ) (c : Chan)
    (hp : c.inPickup = true)
    (hnoexit : ¬ (movingContinuously c vRaw ∧ sameDirection c vRaw))
    (hlt : coarseMismatch c vRaw < 25) :
    slewRate = 5333/1000000 ∧
    (coarseMismatch c vRaw < 2 →
      (resolveChan 1 vRaw c).value = effSample vRaw ∧
      (resolveChan 1 vRaw c).inPickup = false ∧
      (resolveChan 1 vRaw c).settleFrames = 5) ∧
    (¬ coarseMismatch c vRaw < 2 →
      effSample vRaw ≠ c.value ∧
      (c.value < effSample vRaw → (resolveChan 1 vRaw c).value = c.value + slewRate) ∧
      (effSample vRaw < c.value → (resolveChan 1 vRaw c).value = c.value - slewRate)) := by
  have hneq : ∀ hm : ¬ coarseMismatch c vRaw < 2, effSample vRaw ≠ c.value := by
    intro hm heq
    exact hm (by rw [coarseMismatch_eq_zero_of_eq c vRaw heq]; omega)
  simp only [resolveChan]
  rw [if_neg (by rw [hp]; simp), if_pos trivial,
    if_neg (fun h => hnoexit ⟨h.1, h.2.1⟩), if_pos hlt]
  refine ⟨rfl, fun hm => ?_, fun hm => ?_⟩
  · rw [if_pos hm]
    split_ifs <;> exact ⟨rfl, rfl, rfl⟩
  · rw [if_neg hm]
    refine ⟨hneq hm, fun hup => ?_, fun hdown => ?_⟩
    · rw [if_pos (by linarith : effSample vRaw - c.value > 0)]
    · rw [if_neg (by linarith : ¬ effSample vRaw - c.value > 0)]

/-- C8 witness: `chanCatching` (value 0.50, sample 0.54, coarse mismatch
20, no movement) advances by exactly one slew step. -/
theorem c8_catch_slew_witness :
    ¬ coarseMismatch chanCatching (54/100) < 2 ∧
    (resolveChan 1 (54/100) chanCatching).value = chanCatching.value + slewRate := by
  have h := c8_catch_slew (54/100) chanCatching rfl (by decide) (by decide)
  exact ⟨by decide, (h.2.2 (by decide)).2.1 (by decide)⟩

end VFader
